import Mathlib

/-!
# Interruption controller (`pkg/controllers/interruption/controller.go`)

A shallow embedding of the interruption controller and proofs about its
reconcile tick.

The controller talks to collaborators that live outside the file (the queue
transport, the cluster API client, the event recorder, the capacity cache,
the metric sinks).  They are modelled as follows.

* Every call to a collaborator is appended to a *trace* (`List Effect`), the
  state that all functions thread through.  A call that returns a value
  records the value it returned.
* The values returned by the collaborators come from an `Env` of oracles.
  Each oracle receives the trace of everything that happened before the
  call, so that an answer may depend on the whole history (a second delete
  of the same object may answer differently from the first).
* Go `error` values are the type `Err`; a nil error is `none`.
* `workqueue.ParallelizeUntil` runs its pieces concurrently; the model runs
  them one after the other in index order, with a context that is never
  cancelled.
-/

namespace Interruption

/-! ## Errors -/

/-- Go error values.  `leaf` is an error made by a collaborator or by
`fmt.Errorf` without `%w`; its `status` is `some b` when the error is a
Kubernetes API status error, with `b` telling whether its reason is
`NotFound`.  `wrap` is `fmt.Errorf("<pre>%w", cause)`.  `multi` is the
combined error of `go.uber.org/multierr`. -/
inductive Err where
  | leaf (status : Option Bool) (text : String)
  | wrap (pre : String) (cause : Err)
  | multi (errors : List Err)

mutual
/-- The first API status error that `errors.As` finds in the error tree,
walking it depth first. -/
def Err.firstStatus : Err → Option Bool
  | .leaf s _ => s
  | .wrap _ e => e.firstStatus
  | .multi es => Err.firstStatusList es
/-- Depth-first search of `errors.As` through the children of a combined
error. -/
def Err.firstStatusList : List Err → Option Bool
  | [] => none
  | e :: es =>
    match e.firstStatus with
    | some b => some b
    | none => Err.firstStatusList es
end

/-- Model of `apierrors.IsNotFound`: the reason of the first API status error
in the tree is `NotFound`. -/
def Err.IsNotFound (e : Err) : Bool :=
  match e.firstStatus with
  | some b => b
  | none => false

/-- Model of `client.IgnoreNotFound`. -/
def IgnoreNotFound : Option Err → Option Err
  | none => none
  | some e => if e.IsNotFound then none else some e

/-- Model of `multierr.Errors`: the errors a (possibly combined) error is made
of. -/
def multierrErrors : Option Err → List Err
  | none => []
  | some (.multi es) => es
  | some e => [e]

/-- Model of multierr's `fromSlice`, to which `multierr.Combine` delegates:
nil entries are dropped; no error left gives nil, a single one is returned as
it is, several are flattened into one combined error. -/
def multierrCombine (errs : List (Option Err)) : Option Err :=
  match errs.filterMap id with
  | [] => none
  | [e] => some e
  | e :: e' :: es => some (.multi ((e :: e' :: es).flatMap (fun x => multierrErrors (some x))))

/-- Model of `multierr.Append`. -/
def multierrAppend : Option Err → Option Err → Option Err
  | none, right => right
  | some left, none => some left
  | some left, some right =>
    some (.multi (multierrErrors (some left) ++ multierrErrors (some right)))

/-! ## Data model -/

/-- Go `type Kind string` of the `messages` package. -/
abbrev Kind := String

/-- Modelled from the spec: the kind constants of the `messages` package, whose
source is not part of the file; the spec names the six kinds. -/
def ScheduledChangeKind : Kind := "ScheduledChange"
/-- Modelled from the spec: kind constant of the `messages` package. -/
def SpotInterruptionKind : Kind := "SpotInterruption"
/-- Modelled from the spec: kind constant of the `messages` package. -/
def InstanceStoppedKind : Kind := "InstanceStopped"
/-- Modelled from the spec: kind constant of the `messages` package. -/
def InstanceTerminatedKind : Kind := "InstanceTerminated"
/-- Modelled from the spec: kind constant of the `messages` package. -/
def RebalanceRecommendationKind : Kind := "RebalanceRecommendation"
/-- Modelled from the spec: kind constant of the `messages` package. -/
def NoOpKind : Kind := "NoOp"

/-- Go `type Action string`. -/
abbrev Action := String

/-- The action that removes the claim. -/
def CordonAndDrain : Action := "CordonAndDrain"
/-- The action that leaves the claim alone. -/
def NoAction : Action := "NoAction"

/-- The `messages.Message` interface: `Kind()`, `EC2InstanceIDs()`,
`StartTime()`. -/
structure Message where
  kind : Kind
  ec2InstanceIDs : List String
  startTime : Nat
  deriving DecidableEq

/-- The `sqstypes.Message` behind the pointer a batch entry holds; `Body` is a
`*string`. -/
structure RawMessage where
  messageId : String
  body : Option String
  deriving DecidableEq

/-- The fields of `karpv1.NodeClaim` that the controller reads.  `labels` is
the Go map, `deletionTimestamp` the `*metav1.Time` (a nil pointer is
`none`, the zero instant is `some 0`). -/
structure NodeClaim where
  name : String
  labels : List (String × String)
  deletionTimestamp : Option Nat
  deriving DecidableEq

/-- A `corev1.Node`. -/
structure Node where
  name : String
  deriving DecidableEq

/-- Indexing a Go `map[string]string`: a missing key gives the empty string. -/
def labelOf (labels : List (String × String)) (key : String) : String :=
  match labels.lookup key with
  | some v => v
  | none => ""

/-- Model of `(*metav1.Time).IsZero`. -/
def timeIsZero : Option Nat → Bool
  | none => true
  | some t => t == 0

/-- The constant `corev1.LabelTopologyZone`. -/
def LabelTopologyZone : String := "topology.kubernetes.io/zone"
/-- The constant `corev1.LabelInstanceTypeStable`. -/
def LabelInstanceTypeStable : String := "node.kubernetes.io/instance-type"
/-- The constant `karpv1.NodePoolLabelKey`. -/
def NodePoolLabelKey : String := "karpenter.sh/nodepool"
/-- The constant `karpv1.CapacityTypeLabelKey`. -/
def CapacityTypeLabelKey : String := "karpenter.sh/capacity-type"
/-- The constant `karpv1.CapacityTypeSpot`. -/
def CapacityTypeSpot : String := "spot"

/-- The event constructors of the `interruptionevents` package, kept as names:
what each one builds from the node and the claim is left abstract. -/
inductive InterruptionEvent where
  | RebalanceRecommendation
  | Unhealthy
  | SpotInterrupted
  | Stopping
  | Terminating
  | TerminatingOnInterruption
  deriving DecidableEq

/-- The handle of the queue transport (`sqs.Provider`). -/
structure SQSProvider where
  name : String
  deriving DecidableEq

/-- One call to a collaborator, with the value it returned when it returns
one.  `handled` is the only entry that is not a collaborator call: it marks
that `handleMessage` called `handleNodeClaim` for a claim and records what the
call returned. -/
inductive Effect where
  | newSQSProvider (result : Except Err SQSProvider)
  | logError (err : Err) (text : String)
  | logInfo (text : String)
  | hasChanged (key : String) (result : Bool)
  | getSQSMessages (result : Except Err (List (Option RawMessage)))
  | deleteSQSMessage (raw : Option RawMessage) (result : Option Err)
  | deletedMessagesInc
  | receivedMessagesInc (kind : Kind)
  | messageLatencyObserve (startTime : Nat)
  | listNodeClaims (instanceID : String) (result : Except Err (List NodeClaim))
  | listNodes (instanceID : String) (result : Except Err (List Node))
  | deleteNodeClaim (nodeClaim : NodeClaim) (result : Option Err)
  | publish (event : InterruptionEvent) (node : Option Node) (nodeClaim : NodeClaim)
  | markUnavailable (reason : String) (instanceType : String) (zone : String)
      (capacityType : String)
  | nodeClaimsDisruptedInc (reason : String) (nodePool : String) (capacityType : String)
  | handled (instanceID : String) (nodeClaim : NodeClaim) (node : Option Node)
      (result : Option Err)

/-- The answers of the collaborators.  Every oracle but the parser takes the
trace of what happened before the call. -/
structure Env where
  newSQSProvider : List Effect → Except Err SQSProvider
  hasChanged : List Effect → String → Bool
  getSQSMessages : SQSProvider → List Effect → Except Err (List (Option RawMessage))
  deleteSQSMessage : SQSProvider → List Effect → Option RawMessage → Option Err
  parse : String → Except Err Message
  listNodeClaims : List Effect → String → Except Err (List NodeClaim)
  listNodes : List Effect → String → Except Err (List Node)
  delete : List Effect → NodeClaim → Option Err

/-- The mutable part of `Controller`: the lazily created queue handle. -/
structure Controller where
  sqsProvider : Option SQSProvider

/-- Go `reconcile.Result`. -/
structure Result where
  requeue : Bool
  requeueAfter : Nat
  deriving DecidableEq

/-- The constant `singleton.RequeueImmediately`, one nanosecond. -/
def RequeueImmediately : Nat := 1

/-! ## The controller -/

/-- The function `actionForMessage`: the action a message kind calls for. -/
def actionForMessage (msg : Message) : Action :=
  if msg.kind = ScheduledChangeKind ∨ msg.kind = SpotInterruptionKind
      ∨ msg.kind = InstanceStoppedKind ∨ msg.kind = InstanceTerminatedKind then
    CordonAndDrain
  else
    NoAction

/-- The function `notifyForMessage`: publishes the alert chosen by the message
kind. -/
def notifyForMessage (msg : Message) (nodeClaim : NodeClaim) (n : Option Node)
    (tr : List Effect) : List Effect :=
  if msg.kind = RebalanceRecommendationKind then
    tr ++ [.publish .RebalanceRecommendation n nodeClaim]
  else if msg.kind = ScheduledChangeKind then
    tr ++ [.publish .Unhealthy n nodeClaim]
  else if msg.kind = SpotInterruptionKind then
    tr ++ [.publish .SpotInterrupted n nodeClaim]
  else if msg.kind = InstanceStoppedKind then
    tr ++ [.publish .Stopping n nodeClaim]
  else if msg.kind = InstanceTerminatedKind then
    tr ++ [.publish .Terminating n nodeClaim]
  else
    tr

/-- The function `deleteNodeClaim`: removes the NodeClaim from the
api-server. -/
def deleteNodeClaim (env : Env) (msg : Message) (nodeClaim : NodeClaim) (node : Option Node)
    (tr : List Effect) : Option Err × List Effect :=
  if !timeIsZero nodeClaim.deletionTimestamp then
    (none, tr)
  else
    match env.delete tr nodeClaim with
    | some err =>
      (IgnoreNotFound (some (.wrap "deleting the node on interruption message, " err)),
        tr ++ [.deleteNodeClaim nodeClaim (some err)])
    | none =>
      (none,
        tr ++ [.deleteNodeClaim nodeClaim none,
          .logInfo "initiating delete from interruption message",
          .publish .TerminatingOnInterruption node nodeClaim,
          .nodeClaimsDisruptedInc msg.kind (labelOf nodeClaim.labels NodePoolLabelKey)
            (labelOf nodeClaim.labels CapacityTypeLabelKey)])

/-- The cache write of `handleNodeClaim` (its lines 218-225). -/
def markOffering (msg : Message) (nodeClaim : NodeClaim) (tr : List Effect) : List Effect :=
  if msg.kind = SpotInterruptionKind then
    let zone := labelOf nodeClaim.labels LabelTopologyZone
    let instanceType := labelOf nodeClaim.labels LabelInstanceTypeStable
    if zone ≠ "" ∧ instanceType ≠ "" then
      tr ++ [.markUnavailable msg.kind instanceType zone CapacityTypeSpot]
    else
      tr
  else
    tr

/-- The function `handleNodeClaim`: retrieves the action for the message and
performs it against the claim. -/
def handleNodeClaim (env : Env) (msg : Message) (nodeClaim : NodeClaim) (node : Option Node)
    (tr : List Effect) : Option Err × List Effect :=
  let action := actionForMessage msg
  let tr := notifyForMessage msg nodeClaim node tr
  let tr := markOffering msg nodeClaim tr
  if action ≠ NoAction then
    deleteNodeClaim env msg nodeClaim node tr
  else
    (none, tr)

/-- The inner loop of `handleMessage`, over the claims bound to one
instance. -/
def handleClaims (env : Env) (msg : Message) (instanceID : String) :
    List NodeClaim → Option Err → List Effect → Option Err × List Effect
  | [], err, tr => (err, tr)
  | nodeClaim :: rest, err, tr =>
    match env.listNodes tr instanceID with
    | .error e =>
      handleClaims env msg instanceID rest (multierrAppend err (some e))
        (tr ++ [.listNodes instanceID (.error e)])
    | .ok nodes =>
      let node := nodes.head?
      let r := handleNodeClaim env msg nodeClaim node (tr ++ [.listNodes instanceID (.ok nodes)])
      let tr := r.2 ++ [.handled instanceID nodeClaim node r.1]
      match r.1 with
      | some e => handleClaims env msg instanceID rest (multierrAppend err (some e)) tr
      | none => handleClaims env msg instanceID rest err tr

/-- The outer loop of `handleMessage`, over the instances of the message. -/
def handleInstances (env : Env) (msg : Message) :
    List String → Option Err → List Effect → Option Err × List Effect
  | [], err, tr => (err, tr)
  | instanceID :: rest, err, tr =>
    match env.listNodeClaims tr instanceID with
    | .error e =>
      handleInstances env msg rest (multierrAppend err (some e))
        (tr ++ [.listNodeClaims instanceID (.error e)])
    | .ok items =>
      if items.length = 0 then
        handleInstances env msg rest err (tr ++ [.listNodeClaims instanceID (.ok items)])
      else
        let r := handleClaims env msg instanceID items err
          (tr ++ [.listNodeClaims instanceID (.ok items)])
        handleInstances env msg rest r.1 r.2

/-- The function `handleMessage`: acts on every claim involved in the
message. -/
def handleMessage (env : Env) (msg : Message) (tr : List Effect) : Option Err × List Effect :=
  let tr := tr ++ [.receivedMessagesInc msg.kind]
  if msg.kind = NoOpKind then
    (none, tr)
  else
    let r := handleInstances env msg msg.ec2InstanceIDs none tr
    let tr := r.2 ++ [.messageLatencyObserve msg.startTime]
    match r.1 with
    | some err => (some (.wrap "acting on NodeClaims, " err), tr)
    | none => (none, tr)

/-- The function `parseMessage`: parses the queue entry into a message. -/
def parseMessage (env : Env) (raw : Option RawMessage) : Except Err Message :=
  match raw with
  | none => .error (.leaf none "message or message body is nil")
  | some r =>
    match r.body with
    | none => .error (.leaf none "message or message body is nil")
    | some body =>
      match env.parse body with
      | .error err => .error (.wrap "parsing sqs message, " err)
      | .ok msg => .ok msg

/-- The function `deleteMessage`: removes the entry from the queue and counts
the deletion. -/
def deleteMessage (env : Env) (prov : SQSProvider) (raw : Option RawMessage)
    (tr : List Effect) : Option Err × List Effect :=
  match env.deleteSQSMessage prov tr raw with
  | some err =>
    (some (.wrap "deleting sqs message, " err), tr ++ [.deleteSQSMessage raw (some err)])
  | none => (none, tr ++ [.deleteSQSMessage raw none, .deletedMessagesInc])

/-- The piece that `Reconcile` hands to `ParallelizeUntil` (the closure at its
lines 119-132), run for one batch entry; the first component is what the
piece stores in its slot of `errs`. -/
def reconcileEntry (env : Env) (prov : SQSProvider) (raw : Option RawMessage)
    (tr : List Effect) : Option Err × List Effect :=
  match parseMessage env raw with
  | .error e =>
    deleteMessage env prov raw (tr ++ [.logError e "failed parsing interruption message"])
  | .ok msg =>
    let r := handleMessage env msg tr
    match r.1 with
    | some e => (some (.wrap "handling message, " e), r.2)
    | none => deleteMessage env prov raw r.2

/-- The pieces of `ParallelizeUntil`, one per batch entry, in index order;
returns the filled `errs` slice. -/
def reconcileBatch (env : Env) (prov : SQSProvider) :
    List (Option RawMessage) → List Effect → List (Option Err) × List Effect
  | [], tr => ([], tr)
  | raw :: rest, tr =>
    let r := reconcileEntry env prov raw tr
    let rs := reconcileBatch env prov rest r.2
    (r.1 :: rs.1, rs.2)

/-- What one tick returns: the result, the error, the controller and the
trace. -/
structure Tick where
  result : Result
  err : Option Err
  controller : Controller
  trace : List Effect

/-- The outcome of the first half of a tick: the error that ends the tick, or
the queue handle and the batch it fetched. -/
abbrev Fetched := Except Err (SQSProvider × List (Option RawMessage))

/-- The first half of `Reconcile` (its lines 97-113): creates the queue handle
when the controller has none, notes a change of queue, and fetches one
batch. -/
def fetchBatch (env : Env) (c : Controller) (tr : List Effect) :
    Fetched × Controller × List Effect :=
  let created : Except Err SQSProvider × List Effect :=
    match c.sqsProvider with
    | some prov => (.ok prov, tr)
    | none =>
      match env.newSQSProvider tr with
      | .error err =>
        (.error err, tr ++ [.newSQSProvider (.error err),
          .logError err "failed to create valid sqs provider"])
      | .ok prov => (.ok prov, tr ++ [.newSQSProvider (.ok prov)])
  match created with
  | (.error err, tr) => (.error (.wrap "creating sqs provider, " err), c, tr)
  | (.ok prov, tr) =>
    let c : Controller := { sqsProvider := some prov }
    let changed := env.hasChanged tr prov.name
    let tr := tr ++ [.hasChanged prov.name changed]
    let tr := if changed then tr ++ [.logInfo "watching interruption queue"] else tr
    match env.getSQSMessages prov tr with
    | .error err =>
      (.error (.wrap "getting messages from queue, " err), c,
        tr ++ [.getSQSMessages (.error err)])
    | .ok sqsMessages => (.ok (prov, sqsMessages), c, tr ++ [.getSQSMessages (.ok sqsMessages)])

/-- The function `Reconcile`: one tick of the controller. -/
def Reconcile (env : Env) (c : Controller) (tr : List Effect) : Tick :=
  match fetchBatch env c tr with
  | (.error err, c, tr) =>
    { result := { requeue := false, requeueAfter := 0 }, err := some err,
      controller := c, trace := tr }
  | (.ok (prov, sqsMessages), c, tr) =>
    if sqsMessages.length = 0 then
      { result := { requeue := false, requeueAfter := RequeueImmediately }, err := none,
        controller := c, trace := tr }
    else
      let r := reconcileBatch env prov sqsMessages tr
      match multierrCombine r.1 with
      | some err =>
        { result := { requeue := false, requeueAfter := 0 }, err := some err,
          controller := c, trace := r.2 }
      | none =>
        { result := { requeue := false, requeueAfter := RequeueImmediately }, err := none,
          controller := c, trace := r.2 }

/-! ## Reading a trace -/

/-- A write to the capacity cache (`MarkUnavailable`). -/
def Effect.isMarkUnavailable : Effect → Bool
  | .markUnavailable _ _ _ _ => true
  | _ => false

/-- A delete request for a claim. -/
def Effect.isDeleteNodeClaim : Effect → Bool
  | .deleteNodeClaim _ _ => true
  | _ => false

/-- A call to the cluster API: a claim list, a node list or a claim delete. -/
def Effect.isClusterCall : Effect → Bool
  | .listNodeClaims _ _ => true
  | .listNodes _ _ => true
  | .deleteNodeClaim _ _ => true
  | _ => false

/-- An event handed to the recorder. -/
def Effect.isPublish : Effect → Bool
  | .publish _ _ _ => true
  | _ => false

/-- The event that `deleteNodeClaim` publishes after a successful delete. -/
def Effect.isTerminatingOnInterruption : Effect → Bool
  | .publish .TerminatingOnInterruption _ _ => true
  | _ => false

/-- An increment of the disruption counter `NodeClaimsDisruptedTotal`. -/
def Effect.isNodeClaimsDisruptedInc : Effect → Bool
  | .nodeClaimsDisruptedInc _ _ _ => true
  | _ => false

/-- The queue entry a delete request is for. -/
def Effect.deleteTarget : Effect → Option (Option RawMessage)
  | .deleteSQSMessage raw _ => some raw
  | _ => none

/-- The instance a claim lookup is for. -/
def Effect.claimLookup : Effect → Option String
  | .listNodeClaims instanceID _ => some instanceID
  | _ => none

/-- The (instance, claim) pairs a successful claim lookup matched. -/
def Effect.matched : Effect → List (String × NodeClaim)
  | .listNodeClaims instanceID (.ok items) => items.map (fun nc => (instanceID, nc))
  | _ => []

/-- A node lookup: the instance it is for and what it returned. -/
def Effect.nodeLookup : Effect → Option (String × Except Err (List Node))
  | .listNodes instanceID result => some (instanceID, result)
  | _ => none

/-- A call of `handleNodeClaim` from `handleMessage`: the instance, the claim
and the node it was called with. -/
def Effect.dispatch : Effect → Option (String × NodeClaim × Option Node)
  | .handled instanceID nc node _ => some (instanceID, nc, node)
  | _ => none

/-- The failure an entry of the trace reports to `handleMessage`: a failed
claim lookup, a failed node lookup, or an error returned by
`handleNodeClaim`. -/
def Effect.failure : Effect → Option Err
  | .listNodeClaims _ (.error e) => some e
  | .listNodes _ (.error e) => some e
  | .handled _ _ _ (some e) => some e
  | _ => none

/-- The call of `handleNodeClaim` that a matched pair is due, given what the
node lookup made for it returned: none when the lookup failed, else a call
with the first node found, if any. -/
def dispatchOf :
    (String × NodeClaim) × (String × Except Err (List Node)) →
      Option (String × NodeClaim × Option Node)
  | ((instanceID, nc), (_, .ok nodes)) => some (instanceID, nc, nodes.head?)
  | (_, (_, .error _)) => none

/-- Every `handled` marker of the segment `fx`, which starts after the trace
`tr`, closes a run of `handleNodeClaim` on the claim and node it names, with
the result it records. -/
def Dispatched (env : Env) (msg : Message) (tr fx : List Effect) : Prop :=
  ∀ instanceID nc node res, Effect.handled instanceID nc node res ∈ fx →
    ∃ a b c, fx = a ++ b ++ Effect.handled instanceID nc node res :: c
      ∧ handleNodeClaim env msg nc node (tr ++ a) = (res, tr ++ a ++ b)

/-- An entry of the trace that is neither a lookup, nor a `handled` marker,
nor a queue delete. -/
def Effect.quiet : Effect → Bool
  | .listNodeClaims _ _ => false
  | .listNodes _ _ => false
  | .handled _ _ _ _ => false
  | .deleteSQSMessage _ _ => false
  | _ => true

/-! ## Sample runs -/

def sampleProvider : SQSProvider := { name := "interruption-queue" }

/-- A spot claim in `us-east-1a` with no deletion marker. -/
def sampleClaim : NodeClaim :=
  { name := "claim-1",
    labels := [(LabelTopologyZone, "us-east-1a"), (LabelInstanceTypeStable, "m5.large"),
      (NodePoolLabelKey, "default"), (CapacityTypeLabelKey, "spot")],
    deletionTimestamp := none }

def sampleMessage : Message :=
  { kind := SpotInterruptionKind, ec2InstanceIDs := ["i-1"], startTime := 0 }

def noopMessage : Message :=
  { kind := NoOpKind, ec2InstanceIDs := ["i-1"], startTime := 0 }

def sampleRaw : Option RawMessage := some { messageId := "m-1", body := some "spot" }

def noopRaw : Option RawMessage := some { messageId := "m-2", body := some "noop" }

def malformedRaw : Option RawMessage := some { messageId := "m-3", body := some "malformed" }

/-- A run in which every collaborator succeeds: the queue holds one spot
interruption for `i-1`, which is bound to `sampleClaim` and has no node. -/
def sampleEnv : Env :=
  { newSQSProvider := fun _ => .ok sampleProvider
    hasChanged := fun _ _ => false
    getSQSMessages := fun _ _ => .ok [sampleRaw]
    deleteSQSMessage := fun _ _ _ => none
    parse := fun body =>
      if body = "spot" then .ok sampleMessage
      else if body = "noop" then .ok noopMessage
      else .error (.leaf none "unmarshalling the message")
    listNodeClaims := fun _ _ => .ok [sampleClaim]
    listNodes := fun _ _ => .ok []
    delete := fun _ _ => none }

/-- As `sampleEnv`, but the claim lookup fails. -/
def lookupFailsEnv : Env :=
  { sampleEnv with listNodeClaims := fun _ _ => .error (.leaf none "connection refused") }

/-- As `sampleEnv`, but the queue holds one message of kind NoOp. -/
def noopEnv : Env :=
  { sampleEnv with getSQSMessages := fun _ _ => .ok [noopRaw] }

/-- As `sampleEnv`, but the queue holds one message the parser rejects. -/
def malformedEnv : Env :=
  { sampleEnv with getSQSMessages := fun _ _ => .ok [malformedRaw] }

/-- The trace of a first tick up to the fetch of the batch `msgs`. -/
def fetchedTrace (msgs : List (Option RawMessage)) : List Effect :=
  [.newSQSProvider (.ok sampleProvider), .hasChanged "interruption-queue" false,
    .getSQSMessages (.ok msgs)]

/-! ## Theorems -/

theorem wrap_isNotFound (pre : String) (e : Err) : (Err.wrap pre e).IsNotFound = e.IsNotFound := by
  simp [Err.IsNotFound, Err.firstStatus]

/-- C3: `actionForMessage` is a total function of the message kind alone.  It
returns one of the two actions; it returns `CordonAndDrain` exactly when the
kind is ScheduledChange, SpotInterruption, InstanceStopped or
InstanceTerminated, and `NoAction` exactly for every other kind string, among
them RebalanceRecommendation and NoOp; the other fields of the message do not
matter. -/
theorem C3_actionForMessage_total (msg : Message) :
    (actionForMessage msg = CordonAndDrain ∨ actionForMessage msg = NoAction)
    ∧ (actionForMessage msg = CordonAndDrain ↔
        msg.kind ∈ [ScheduledChangeKind, SpotInterruptionKind, InstanceStoppedKind,
          InstanceTerminatedKind])
    ∧ (actionForMessage msg = NoAction ↔
        msg.kind ∉ [ScheduledChangeKind, SpotInterruptionKind, InstanceStoppedKind,
          InstanceTerminatedKind])
    ∧ actionForMessage { msg with kind := RebalanceRecommendationKind } = NoAction
    ∧ actionForMessage { msg with kind := NoOpKind } = NoAction
    ∧ actionForMessage msg
        = actionForMessage { kind := msg.kind, ec2InstanceIDs := [], startTime := 0 } := by
  have hne : CordonAndDrain ≠ NoAction := by decide
  refine ⟨?_, ?_, ?_, rfl, rfl, rfl⟩
  · unfold actionForMessage; split <;> simp
  · unfold actionForMessage
    split
    · rename_i h; simp only [List.mem_cons, List.mem_singleton, List.not_mem_nil, or_false]; simp [h]
    · rename_i h; simp only [List.mem_cons, List.mem_singleton, List.not_mem_nil, or_false]
      constructor
      · intro h'; exact absurd h'.symm hne
      · intro h'; exact absurd h' h
  · unfold actionForMessage
    split
    · rename_i h; simp only [List.mem_cons, List.mem_singleton, List.not_mem_nil, or_false]
      constructor
      · intro h'; exact absurd h' hne
      · intro h'; exact absurd h h'
    · rename_i h; simp only [List.mem_cons, List.mem_singleton, List.not_mem_nil, or_false]; simp [h]

/-! ## The trace of `handleNodeClaim` -/

theorem notifyForMessage_append (msg : Message) (nc : NodeClaim) (n : Option Node)
    (tr : List Effect) :
    notifyForMessage msg nc n tr = tr ++ notifyForMessage msg nc n [] := by
  unfold notifyForMessage
  split_ifs <;> simp

theorem markOffering_append (msg : Message) (nc : NodeClaim) (tr : List Effect) :
    markOffering msg nc tr = tr ++ markOffering msg nc [] := by
  unfold markOffering
  dsimp only
  split_ifs <;> simp

/-- The notification publishes at most one event, never the one that follows a
delete, and touches nothing else. -/
theorem notifyForMessage_effects (msg : Message) (nc : NodeClaim) (n : Option Node) :
    ∀ e ∈ notifyForMessage msg nc n [],
      e.isPublish = true ∧ e.isTerminatingOnInterruption = false := by
  unfold notifyForMessage
  split_ifs <;> simp [Effect.isPublish, Effect.isTerminatingOnInterruption]

theorem markOffering_effects (msg : Message) (nc : NodeClaim) :
    ∀ e ∈ markOffering msg nc [], e.isMarkUnavailable = true := by
  unfold markOffering
  dsimp only
  split_ifs <;> simp [Effect.isMarkUnavailable]

theorem handleNodeClaim_eq (env : Env) (msg : Message) (nc : NodeClaim) (node : Option Node)
    (tr : List Effect) :
    handleNodeClaim env msg nc node tr =
      if actionForMessage msg ≠ NoAction then
        deleteNodeClaim env msg nc node
          (tr ++ (notifyForMessage msg nc node [] ++ markOffering msg nc []))
      else
        (none, tr ++ (notifyForMessage msg nc node [] ++ markOffering msg nc [])) := by
  unfold handleNodeClaim
  simp only []
  rw [markOffering_append, notifyForMessage_append, List.append_assoc]

/-- The effects of `deleteNodeClaim`, case by case. -/
theorem deleteNodeClaim_eq (env : Env) (msg : Message) (nc : NodeClaim) (node : Option Node)
    (tr : List Effect) :
    deleteNodeClaim env msg nc node tr =
      if timeIsZero nc.deletionTimestamp = false then (none, tr)
      else
        match env.delete tr nc with
        | some err =>
          (if err.IsNotFound then none
            else some (.wrap "deleting the node on interruption message, " err),
            tr ++ [.deleteNodeClaim nc (some err)])
        | none =>
          (none,
            tr ++ [.deleteNodeClaim nc none,
              .logInfo "initiating delete from interruption message",
              .publish .TerminatingOnInterruption node nc,
              .nodeClaimsDisruptedInc msg.kind (labelOf nc.labels NodePoolLabelKey)
                (labelOf nc.labels CapacityTypeLabelKey)]) := by
  unfold deleteNodeClaim
  cases hz : timeIsZero nc.deletionTimestamp
  · simp
  · simp only [Bool.not_true, Bool.false_eq_true, if_false]
    cases hd : env.delete tr nc
    · simp
    · simp [IgnoreNotFound, Err.IsNotFound, Err.firstStatus]

/-- C7: `handleNodeClaim` writes to the capacity cache exactly once, with the
tuple (kind, instance-type label, zone label, spot), when the kind is
SpotInterruption and both labels are non-empty, and not at all otherwise.  The
statement holds for every claim and every answer of the cluster API, hence
also when the deletion marker is already set and when the delete request
fails. -/
theorem C7_handleNodeClaim_cache_write (env : Env) (msg : Message) (nc : NodeClaim)
    (node : Option Node) (tr : List Effect) :
    ∃ fx, (handleNodeClaim env msg nc node tr).2 = tr ++ fx
      ∧ fx.filter Effect.isMarkUnavailable =
        if msg.kind = SpotInterruptionKind ∧ labelOf nc.labels LabelTopologyZone ≠ ""
            ∧ labelOf nc.labels LabelInstanceTypeStable ≠ "" then
          [Effect.markUnavailable msg.kind (labelOf nc.labels LabelInstanceTypeStable)
            (labelOf nc.labels LabelTopologyZone) CapacityTypeSpot]
        else [] := by
  have hn : (notifyForMessage msg nc node []).filter Effect.isMarkUnavailable = [] := by
    unfold notifyForMessage
    split_ifs <;> simp [Effect.isMarkUnavailable]
  have hm : (markOffering msg nc []).filter Effect.isMarkUnavailable =
      if msg.kind = SpotInterruptionKind ∧ labelOf nc.labels LabelTopologyZone ≠ ""
          ∧ labelOf nc.labels LabelInstanceTypeStable ≠ "" then
        [Effect.markUnavailable msg.kind (labelOf nc.labels LabelInstanceTypeStable)
          (labelOf nc.labels LabelTopologyZone) CapacityTypeSpot]
      else [] := by
    unfold markOffering
    by_cases hk : msg.kind = SpotInterruptionKind
    · by_cases hl : labelOf nc.labels LabelTopologyZone ≠ ""
          ∧ labelOf nc.labels LabelInstanceTypeStable ≠ ""
      · simp [hk, hl, Effect.isMarkUnavailable]
      · rw [if_pos hk, if_neg hl, if_neg (fun h => hl h.2)]; rfl
    · simp [hk]
  rw [handleNodeClaim_eq, deleteNodeClaim_eq]
  by_cases ha : actionForMessage msg ≠ NoAction
  · rw [if_pos ha]
    cases hz : timeIsZero nc.deletionTimestamp
    · exact ⟨_, rfl, by simp only [List.filter_append, hn, hm, List.nil_append]⟩
    · simp only [Bool.true_eq_false, if_false]
      cases hd : env.delete _ nc
      · refine ⟨_, (List.append_assoc _ _ _), ?_⟩
        simp only [List.filter_append, hn, hm, List.nil_append]
        simp [Effect.isMarkUnavailable]
      · refine ⟨_, (List.append_assoc _ _ _), ?_⟩
        simp only [List.filter_append, hn, hm, List.nil_append]
        simp [Effect.isMarkUnavailable]
  · rw [if_neg ha]
    exact ⟨_, rfl, by simp only [List.filter_append, hn, hm, List.nil_append]⟩

/-- What precedes the delete in `handleNodeClaim` holds no delete request, no
terminating event and no counter increment. -/
theorem prelude_filters (msg : Message) (nc : NodeClaim) (node : Option Node) :
    (notifyForMessage msg nc node [] ++ markOffering msg nc []).filter
        Effect.isDeleteNodeClaim = []
    ∧ (notifyForMessage msg nc node [] ++ markOffering msg nc []).filter
        Effect.isTerminatingOnInterruption = []
    ∧ (notifyForMessage msg nc node [] ++ markOffering msg nc []).filter
        Effect.isNodeClaimsDisruptedInc = [] := by
  refine ⟨?_, ?_, ?_⟩ <;>
  · rw [List.filter_append, List.append_eq_nil]
    constructor
    · unfold notifyForMessage
      split_ifs <;>
        simp [Effect.isDeleteNodeClaim, Effect.isTerminatingOnInterruption,
          Effect.isNodeClaimsDisruptedInc]
    · unfold markOffering
      dsimp only
      split_ifs <;>
        simp [Effect.isDeleteNodeClaim, Effect.isTerminatingOnInterruption,
          Effect.isNodeClaimsDisruptedInc]

theorem prelude_trace (msg : Message) (nc : NodeClaim) (node : Option Node) (tr : List Effect) :
    markOffering msg nc (notifyForMessage msg nc node tr)
      = tr ++ (notifyForMessage msg nc node [] ++ markOffering msg nc []) := by
  rw [markOffering_append, notifyForMessage_append, List.append_assoc]

/-- C8: for a message that resolves to `CordonAndDrain` and a claim whose
deletion marker is unset, `handleNodeClaim` issues exactly one delete request
and the answer to it decides the outcome.  When the delete succeeds the call
returns nil and the `TerminatingOnInterruption` event and the disruption
counter increment (tagged with the kind, the pool label and the capacity-type
label) each occur exactly once.  When the delete fails the call returns nil if
the error is a not-found and the wrapped error otherwise, and neither the
event nor the increment occurs. -/
theorem C8_handleNodeClaim_delete_decides (env : Env) (msg : Message) (nc : NodeClaim)
    (node : Option Node) (tr : List Effect)
    (haction : actionForMessage msg = CordonAndDrain)
    (hmarker : timeIsZero nc.deletionTimestamp = true) :
    ∃ fx, (handleNodeClaim env msg nc node tr).2 = tr ++ fx
      ∧ fx.filter Effect.isDeleteNodeClaim =
          [Effect.deleteNodeClaim nc
            (env.delete (markOffering msg nc (notifyForMessage msg nc node tr)) nc)]
      ∧ (match env.delete (markOffering msg nc (notifyForMessage msg nc node tr)) nc with
        | none =>
          (handleNodeClaim env msg nc node tr).1 = none
          ∧ fx.filter Effect.isTerminatingOnInterruption =
              [Effect.publish .TerminatingOnInterruption node nc]
          ∧ fx.filter Effect.isNodeClaimsDisruptedInc =
              [Effect.nodeClaimsDisruptedInc msg.kind (labelOf nc.labels NodePoolLabelKey)
                (labelOf nc.labels CapacityTypeLabelKey)]
        | some e =>
          (handleNodeClaim env msg nc node tr).1 =
              (if e.IsNotFound then none
                else some (.wrap "deleting the node on interruption message, " e))
          ∧ fx.filter Effect.isTerminatingOnInterruption = []
          ∧ fx.filter Effect.isNodeClaimsDisruptedInc = []) := by
  have ha : actionForMessage msg ≠ NoAction := by rw [haction]; decide
  obtain ⟨h1, h2, h3⟩ := prelude_filters msg nc node
  rw [prelude_trace, handleNodeClaim_eq, if_pos ha, deleteNodeClaim_eq, hmarker]
  simp only [Bool.true_eq_false, if_false]
  cases hd : env.delete (tr ++ (notifyForMessage msg nc node [] ++ markOffering msg nc [])) nc
  · refine ⟨_, (List.append_assoc _ _ _), ?_, rfl, ?_, ?_⟩
    · rw [List.filter_append, h1]; simp [Effect.isDeleteNodeClaim]
    · rw [List.filter_append, h2]; simp [Effect.isTerminatingOnInterruption]
    · rw [List.filter_append, h3]; simp [Effect.isNodeClaimsDisruptedInc]
  · refine ⟨_, (List.append_assoc _ _ _), ?_, rfl, ?_, ?_⟩
    · rw [List.filter_append, h1]; simp [Effect.isDeleteNodeClaim]
    · rw [List.filter_append, h2]; simp [Effect.isTerminatingOnInterruption]
    · rw [List.filter_append, h3]; simp [Effect.isNodeClaimsDisruptedInc]

/-- C2: idempotency of `handleNodeClaim`.  For a message that resolves to
`CordonAndDrain`, if a first call runs on a claim whose deletion marker is
unset and its delete request succeeds, then both that call and a second call
on the same claim with the marker set return nil, and the second call does
nothing but the notification of the kind and the cache write: it issues no
delete request, publishes no `TerminatingOnInterruption` event and does not
increment the disruption counter. -/
theorem C2_handleNodeClaim_idempotent (env : Env) (msg : Message) (nc : NodeClaim)
    (node node' : Option Node) (tr tr' : List Effect) (t : Nat)
    (haction : actionForMessage msg = CordonAndDrain)
    (hmarker : timeIsZero nc.deletionTimestamp = true)
    (hdelete : env.delete (markOffering msg nc (notifyForMessage msg nc node tr)) nc = none)
    (hset : timeIsZero (some t) = false) :
    (handleNodeClaim env msg nc node tr).1 = none
    ∧ (handleNodeClaim env msg { nc with deletionTimestamp := some t } node' tr').1 = none
    ∧ ∃ fx, (handleNodeClaim env msg { nc with deletionTimestamp := some t } node' tr').2
          = tr' ++ fx
        ∧ fx = notifyForMessage msg { nc with deletionTimestamp := some t } node' []
            ++ markOffering msg { nc with deletionTimestamp := some t } []
        ∧ fx.filter Effect.isDeleteNodeClaim = []
        ∧ fx.filter Effect.isTerminatingOnInterruption = []
        ∧ fx.filter Effect.isNodeClaimsDisruptedInc = [] := by
  have ha : actionForMessage msg ≠ NoAction := by rw [haction]; decide
  rw [prelude_trace] at hdelete
  refine ⟨?_, ?_, ?_⟩
  · rw [handleNodeClaim_eq, if_pos ha, deleteNodeClaim_eq, hmarker]
    simp only [Bool.true_eq_false, if_false, hdelete]
  · rw [handleNodeClaim_eq, if_pos ha, deleteNodeClaim_eq]
    simp only [hset, if_true]
  · obtain ⟨h1, h2, h3⟩ := prelude_filters msg { nc with deletionTimestamp := some t } node'
    rw [handleNodeClaim_eq, if_pos ha, deleteNodeClaim_eq]
    simp only [hset, if_true]
    exact ⟨_, rfl, rfl, h1, h2, h3⟩

/-! ## The trace of `handleMessage` -/

theorem multierrErrors_append (a : Option Err) (e : Err) :
    multierrErrors (multierrAppend a (some e))
      = multierrErrors a ++ multierrErrors (some e) := by
  cases a with
  | none => simp [multierrAppend, multierrErrors]
  | some l => simp [multierrAppend, multierrErrors]

theorem multierrAppend_ne_none (a : Option Err) (e : Err) :
    multierrAppend a (some e) ≠ none := by
  cases a <;> simp [multierrAppend]

theorem quiet_projections (e : Effect) (h : e.quiet = true) :
    e.claimLookup = none ∧ e.matched = [] ∧ e.nodeLookup = none ∧ e.dispatch = none
      ∧ e.failure = none ∧ e.deleteTarget = none := by
  cases e <;>
    simp_all [Effect.quiet, Effect.claimLookup, Effect.matched, Effect.nodeLookup,
      Effect.dispatch, Effect.failure, Effect.deleteTarget]

theorem handleNodeClaim_quiet (env : Env) (msg : Message) (nc : NodeClaim)
    (node : Option Node) (tr : List Effect) :
    ∃ fx, (handleNodeClaim env msg nc node tr).2 = tr ++ fx ∧ ∀ e ∈ fx, e.quiet = true := by
  have hp : ∀ e ∈ notifyForMessage msg nc node [] ++ markOffering msg nc [],
      e.quiet = true := by
    intro e he
    rcases List.mem_append.1 he with h | h
    · have := (notifyForMessage_effects msg nc node e h).1
      cases e <;> simp_all [Effect.quiet, Effect.isPublish]
    · have := markOffering_effects msg nc e h
      cases e <;> simp_all [Effect.quiet, Effect.isMarkUnavailable]
  rw [handleNodeClaim_eq, deleteNodeClaim_eq]
  by_cases ha : actionForMessage msg ≠ NoAction
  · rw [if_pos ha]
    cases hz : timeIsZero nc.deletionTimestamp
    · exact ⟨_, rfl, hp⟩
    · simp only [Bool.true_eq_false, if_false]
      cases hd : env.delete _ nc
      · refine ⟨_, (List.append_assoc _ _ _), ?_⟩
        intro e he
        rcases List.mem_append.1 he with h | h
        · exact hp e h
        · simp at h
          rcases h with h | h | h | h <;> subst h <;> rfl
      · refine ⟨_, (List.append_assoc _ _ _), ?_⟩
        intro e he
        rcases List.mem_append.1 he with h | h
        · exact hp e h
        · simp at h
          subst h; rfl
  · rw [if_neg ha]
    exact ⟨_, rfl, hp⟩

theorem filterMap_nil_of_forall {α β : Type} (f : α → Option β) (l : List α)
    (h : ∀ a ∈ l, f a = none) : l.filterMap f = [] :=
  List.filterMap_eq_nil_iff.2 h

theorem flatMap_nil_of_forall {α β : Type} (f : α → List β) (l : List α)
    (h : ∀ a ∈ l, f a = []) : l.flatMap f = [] :=
  List.flatMap_eq_nil_iff.2 h

theorem Dispatched_of_no_dispatch (env : Env) (msg : Message) (tr p : List Effect)
    (h : ∀ e ∈ p, e.dispatch = none) : Dispatched env msg tr p := by
  intro id nc node res hmem
  have := h _ hmem
  simp [Effect.dispatch] at this

theorem Dispatched_append (env : Env) (msg : Message) (tr p q : List Effect)
    (hp : Dispatched env msg tr p) (hq : Dispatched env msg (tr ++ p) q) :
    Dispatched env msg tr (p ++ q) := by
  intro id nc node res hmem
  rcases List.mem_append.1 hmem with h | h
  · obtain ⟨a, b, c, hfx, hrun⟩ := hp id nc node res h
    refine ⟨a, b, c ++ q, ?_, hrun⟩
    rw [hfx]; simp
  · obtain ⟨a, b, c, hfx, hrun⟩ := hq id nc node res h
    refine ⟨p ++ a, b, c, ?_, ?_⟩
    · rw [hfx]; simp
    · rw [← List.append_assoc tr p a]; exact hrun

theorem Dispatched_run (env : Env) (msg : Message) (tr b : List Effect) (id : String)
    (nc : NodeClaim) (node : Option Node) (res : Option Err)
    (hrun : handleNodeClaim env msg nc node tr = (res, tr ++ b))
    (hb : ∀ e ∈ b, e.dispatch = none) :
    Dispatched env msg tr (b ++ [Effect.handled id nc node res]) := by
  intro id' nc' node' res' hmem
  rcases List.mem_append.1 hmem with h | h
  · have := hb _ h
    simp [Effect.dispatch] at this
  · simp only [List.mem_singleton] at h
    refine ⟨[], b, [], ?_, ?_⟩
    · rw [h]; simp
    · injection h with h1 h2 h3 h4
      subst h2 h3 h4
      simpa using hrun

theorem handleClaims_spec (env : Env) (msg : Message) (id : String) :
    ∀ (items : List NodeClaim) (err : Option Err) (tr : List Effect),
    ∃ fx, (handleClaims env msg id items err tr).2 = tr ++ fx
      ∧ (∀ e ∈ fx, e.claimLookup = none ∧ e.matched = [] ∧ e.deleteTarget = none)
      ∧ (fx.filterMap Effect.nodeLookup).map Prod.fst = items.map (fun _ => id)
      ∧ fx.filterMap Effect.dispatch =
          (List.zip (items.map (fun nc => (id, nc)))
            (fx.filterMap Effect.nodeLookup)).filterMap dispatchOf
      ∧ ((handleClaims env msg id items err tr).1 = none
          ↔ err = none ∧ fx.filterMap Effect.failure = [])
      ∧ multierrErrors (handleClaims env msg id items err tr).1 =
          multierrErrors err
            ++ (fx.filterMap Effect.failure).flatMap (fun e => multierrErrors (some e))
      ∧ Dispatched env msg tr fx := by
  intro items
  induction items with
  | nil =>
    intro err tr
    refine ⟨[], by simp [handleClaims], by simp, by simp, by simp, by simp [handleClaims],
      by simp [handleClaims], ?_⟩
    exact Dispatched_of_no_dispatch env msg tr [] (by simp)
  | cons nc rest ih =>
    intro err tr
    rw [handleClaims]
    cases hl : env.listNodes tr id with
    | error e =>
      dsimp only
      obtain ⟨fx, h1, h2, h3, h4, h5, h6, h7⟩ :=
        ih (multierrAppend err (some e)) (tr ++ [.listNodes id (.error e)])
      refine ⟨.listNodes id (.error e) :: fx, ?_, ?_, ?_, ?_, ?_, ?_, ?_⟩
      · rw [h1]; simp
      · intro x hx
        rcases List.mem_cons.1 hx with hx | hx
        · subst hx; simp [Effect.claimLookup, Effect.matched, Effect.deleteTarget]
        · exact h2 x hx
      · simp [Effect.nodeLookup, h3]
      · simp [Effect.nodeLookup, Effect.dispatch, dispatchOf, h4]
      · rw [h5]
        simp [Effect.failure, multierrAppend_ne_none]
      · rw [h6, multierrErrors_append]
        simp [Effect.failure]
      · have := Dispatched_append env msg tr [.listNodes id (.error e)] fx
          (Dispatched_of_no_dispatch env msg tr _ (by simp [Effect.dispatch])) h7
        simpa using this
    | ok nodes =>
      dsimp only
      obtain ⟨fxh, hh1, hh2⟩ :=
        handleNodeClaim_quiet env msg nc nodes.head? (tr ++ [.listNodes id (.ok nodes)])
      have hq : ∀ e ∈ fxh, e.claimLookup = none ∧ e.matched = [] ∧ e.nodeLookup = none
          ∧ e.dispatch = none ∧ e.failure = none ∧ e.deleteTarget = none :=
        fun e he => quiet_projections e (hh2 e he)
      have hrun : handleNodeClaim env msg nc nodes.head? (tr ++ [.listNodes id (.ok nodes)])
          = ((handleNodeClaim env msg nc nodes.head?
              (tr ++ [.listNodes id (.ok nodes)])).1,
            tr ++ [.listNodes id (.ok nodes)] ++ fxh) := by
        rw [← hh1]
      have hfn : fxh.filterMap Effect.nodeLookup = [] :=
        filterMap_nil_of_forall _ _ (fun e he => (hq e he).2.2.1)
      have hfd : fxh.filterMap Effect.dispatch = [] :=
        filterMap_nil_of_forall _ _ (fun e he => (hq e he).2.2.2.1)
      have hff : fxh.filterMap Effect.failure = [] :=
        filterMap_nil_of_forall _ _ (fun e he => (hq e he).2.2.2.2.1)
      have hdisp : Dispatched env msg tr
          (([.listNodes id (.ok nodes)] ++ fxh)
            ++ [Effect.handled id nc nodes.head?
              (handleNodeClaim env msg nc nodes.head?
                (tr ++ [.listNodes id (.ok nodes)])).1]) := by
        rw [List.append_assoc]
        refine Dispatched_append env msg tr _ _
          (Dispatched_of_no_dispatch env msg tr _ (by simp [Effect.dispatch])) ?_
        exact Dispatched_run env msg _ fxh id nc nodes.head? _ hrun
          (fun e he => (hq e he).2.2.2.1)
      generalize hres : (handleNodeClaim env msg nc nodes.head?
          (tr ++ [.listNodes id (.ok nodes)])).1 = res at hdisp ⊢
      rw [hh1]
      cases res with
      | none =>
        dsimp only
        obtain ⟨fx, h1, h2, h3, h4, h5, h6, h7⟩ :=
          ih err (tr ++ [.listNodes id (.ok nodes)] ++ fxh
            ++ [.handled id nc nodes.head? none])
        refine ⟨([.listNodes id (.ok nodes)] ++ fxh
            ++ [Effect.handled id nc nodes.head? none]) ++ fx, ?_, ?_, ?_, ?_, ?_, ?_, ?_⟩
        · rw [h1]; simp
        · intro x hx
          simp only [List.mem_append, List.mem_singleton] at hx
          rcases hx with ((hx | hx) | hx) | hx
          · subst hx; simp [Effect.claimLookup, Effect.matched, Effect.deleteTarget]
          · exact ⟨(hq x hx).1, (hq x hx).2.1, (hq x hx).2.2.2.2.2⟩
          · subst hx; simp [Effect.claimLookup, Effect.matched, Effect.deleteTarget]
          · exact h2 x hx
        · simp [List.filterMap_append, hfn, Effect.nodeLookup, h3]
        · simp [List.filterMap_append, hfn, hfd, Effect.nodeLookup, Effect.dispatch,
            dispatchOf, h4]
        · rw [h5]
          simp [List.filterMap_append, hff, Effect.failure]
        · rw [h6]
          simp [List.filterMap_append, hff, Effect.failure]
        · refine Dispatched_append env msg tr _ _ hdisp ?_
          simpa [List.append_assoc] using h7
      | some e' =>
        dsimp only
        obtain ⟨fx, h1, h2, h3, h4, h5, h6, h7⟩ :=
          ih (multierrAppend err (some e')) (tr ++ [.listNodes id (.ok nodes)] ++ fxh
            ++ [.handled id nc nodes.head? (some e')])
        refine ⟨([.listNodes id (.ok nodes)] ++ fxh
            ++ [Effect.handled id nc nodes.head? (some e')]) ++ fx,
          ?_, ?_, ?_, ?_, ?_, ?_, ?_⟩
        · rw [h1]; simp
        · intro x hx
          simp only [List.mem_append, List.mem_singleton] at hx
          rcases hx with ((hx | hx) | hx) | hx
          · subst hx; simp [Effect.claimLookup, Effect.matched, Effect.deleteTarget]
          · exact ⟨(hq x hx).1, (hq x hx).2.1, (hq x hx).2.2.2.2.2⟩
          · subst hx; simp [Effect.claimLookup, Effect.matched, Effect.deleteTarget]
          · exact h2 x hx
        · simp [List.filterMap_append, hfn, Effect.nodeLookup, h3]
        · simp [List.filterMap_append, hfn, hfd, Effect.nodeLookup, Effect.dispatch,
            dispatchOf, h4]
        · rw [h5]
          simp [List.filterMap_append, hff, Effect.failure, multierrAppend_ne_none]
        · rw [h6, multierrErrors_append]
          simp [List.filterMap_append, hff, Effect.failure]
        · refine Dispatched_append env msg tr _ _ hdisp ?_
          simpa [List.append_assoc] using h7

theorem handleInstances_spec (env : Env) (msg : Message) :
    ∀ (ids : List String) (err : Option Err) (tr : List Effect),
    ∃ fx, (handleInstances env msg ids err tr).2 = tr ++ fx
      ∧ (∀ e ∈ fx, e.deleteTarget = none)
      ∧ fx.filterMap Effect.claimLookup = ids
      ∧ (fx.filterMap Effect.nodeLookup).map Prod.fst
          = (fx.flatMap Effect.matched).map Prod.fst
      ∧ fx.filterMap Effect.dispatch =
          (List.zip (fx.flatMap Effect.matched)
            (fx.filterMap Effect.nodeLookup)).filterMap dispatchOf
      ∧ ((handleInstances env msg ids err tr).1 = none
          ↔ err = none ∧ fx.filterMap Effect.failure = [])
      ∧ multierrErrors (handleInstances env msg ids err tr).1 =
          multierrErrors err
            ++ (fx.filterMap Effect.failure).flatMap (fun e => multierrErrors (some e))
      ∧ Dispatched env msg tr fx := by
  intro ids
  induction ids with
  | nil =>
    intro err tr
    refine ⟨[], by simp [handleInstances], by simp, by simp, by simp, by simp,
      by simp [handleInstances], by simp [handleInstances], ?_⟩
    exact Dispatched_of_no_dispatch env msg tr [] (by simp)
  | cons id rest ih =>
    intro err tr
    rw [handleInstances]
    cases hl : env.listNodeClaims tr id with
    | error e =>
      dsimp only
      obtain ⟨fx, h1, h2, h3, h4, h5, h6, h7, h8⟩ :=
        ih (multierrAppend err (some e)) (tr ++ [.listNodeClaims id (.error e)])
      refine ⟨.listNodeClaims id (.error e) :: fx, ?_, ?_, ?_, ?_, ?_, ?_, ?_, ?_⟩
      · rw [h1]; simp
      · intro x hx
        rcases List.mem_cons.1 hx with hx | hx
        · subst hx; simp [Effect.deleteTarget]
        · exact h2 x hx
      · simp [Effect.claimLookup, h3]
      · simp [Effect.nodeLookup, Effect.matched, h4]
      · simp [Effect.nodeLookup, Effect.matched, Effect.dispatch, h5]
      · rw [h6]
        simp [Effect.failure, multierrAppend_ne_none]
      · rw [h7, multierrErrors_append]
        simp [Effect.failure]
      · have := Dispatched_append env msg tr [.listNodeClaims id (.error e)] fx
          (Dispatched_of_no_dispatch env msg tr _ (by simp [Effect.dispatch])) h8
        simpa using this
    | ok items =>
      dsimp only
      by_cases hlen : items.length = 0
      · rw [if_pos hlen]
        have hnil : items = [] := List.length_eq_zero.1 hlen
        subst hnil
        obtain ⟨fx, h1, h2, h3, h4, h5, h6, h7, h8⟩ :=
          ih err (tr ++ [.listNodeClaims id (.ok [])])
        refine ⟨.listNodeClaims id (.ok []) :: fx, ?_, ?_, ?_, ?_, ?_, ?_, ?_, ?_⟩
        · rw [h1]; simp
        · intro x hx
          rcases List.mem_cons.1 hx with hx | hx
          · subst hx; simp [Effect.deleteTarget]
          · exact h2 x hx
        · simp [Effect.claimLookup, h3]
        · simp [Effect.nodeLookup, Effect.matched, h4]
        · simp [Effect.nodeLookup, Effect.matched, Effect.dispatch, h5]
        · rw [h6]
          simp [Effect.failure]
        · rw [h7]
          simp [Effect.failure]
        · have := Dispatched_append env msg tr [.listNodeClaims id (.ok [])] fx
            (Dispatched_of_no_dispatch env msg tr _ (by simp [Effect.dispatch])) h8
          simpa using this
      · rw [if_neg hlen]
        obtain ⟨fxc, c1, c2, c3, c4, c5, c6, c7⟩ :=
          handleClaims_spec env msg id items err (tr ++ [.listNodeClaims id (.ok items)])
        generalize hres : handleClaims env msg id items err
          (tr ++ [.listNodeClaims id (.ok items)]) = res at c1 c5 c6 ⊢
        obtain ⟨fx, h1, h2, h3, h4, h5, h6, h7, h8⟩ := ih res.1 res.2
        have hcl : fxc.filterMap Effect.claimLookup = [] :=
          filterMap_nil_of_forall _ _ (fun e he => (c2 e he).1)
        have hcm : fxc.flatMap Effect.matched = [] :=
          flatMap_nil_of_forall _ _ (fun e he => (c2 e he).2.1)
        have hlen2 : (items.map (fun nc => (id, nc))).length
            = (fxc.filterMap Effect.nodeLookup).length := by
          have := congrArg List.length c3
          simpa using this.symm
        refine ⟨([.listNodeClaims id (.ok items)] ++ fxc) ++ fx,
          ?_, ?_, ?_, ?_, ?_, ?_, ?_, ?_⟩
        · rw [h1, c1]; simp
        · intro x hx
          simp only [List.mem_append, List.mem_singleton] at hx
          rcases hx with (hx | hx) | hx
          · subst hx; simp [Effect.deleteTarget]
          · exact (c2 x hx).2.2
          · exact h2 x hx
        · simp [List.filterMap_append, hcl, Effect.claimLookup, h3]
        · simp only [List.filterMap_append, List.flatMap_append, List.map_append, hcm]
          simp [Effect.nodeLookup, Effect.matched, c3, h4]
        · simp only [List.filterMap_append, List.flatMap_append, hcm]
          simp only [List.filterMap_cons, List.filterMap_nil, Effect.nodeLookup,
            Effect.dispatch, List.flatMap_cons, List.flatMap_nil, Effect.matched,
            List.nil_append, List.append_nil]
          rw [List.zip_append hlen2, List.filterMap_append, c4, h5]
        · rw [h6, c5]
          simp [List.filterMap_append, Effect.failure, and_assoc]
        · rw [h7, c6]
          simp [List.filterMap_append, Effect.failure]
        · refine Dispatched_append env msg tr _ _ ?_ ?_
          · exact Dispatched_append env msg tr _ _
              (Dispatched_of_no_dispatch env msg tr _ (by simp [Effect.dispatch])) c7
          · rw [← List.append_assoc, ← c1]; exact h8

/-- C9: isolation inside `handleMessage`, for a message that is not a NoOp.
Whatever fails, the claims of every instance of the message are looked up, in
order; every claim that a successful lookup matched gets its own node lookup;
`handleNodeClaim` is called once for every matched claim whose node lookup
succeeded, with the first node found, and for no other; every `handled` marker
stands for an actual run of `handleNodeClaim`.  The call returns nil exactly
when no lookup and no `handleNodeClaim` call failed (a lookup that matches no
claim is not a failure), and otherwise returns the combination of all the
failures, in order, wrapped once. -/
theorem C9_handleMessage_isolation (env : Env) (msg : Message) (tr : List Effect)
    (hkind : msg.kind ≠ NoOpKind) :
    ∃ fx, (handleMessage env msg tr).2 = tr ++ fx
      ∧ fx.filterMap Effect.claimLookup = msg.ec2InstanceIDs
      ∧ (fx.filterMap Effect.nodeLookup).map Prod.fst
          = (fx.flatMap Effect.matched).map Prod.fst
      ∧ fx.filterMap Effect.dispatch =
          (List.zip (fx.flatMap Effect.matched)
            (fx.filterMap Effect.nodeLookup)).filterMap dispatchOf
      ∧ Dispatched env msg tr fx
      ∧ ((handleMessage env msg tr).1 = none ↔ fx.filterMap Effect.failure = [])
      ∧ (∀ err, (handleMessage env msg tr).1 = some err →
          ∃ agg, err = .wrap "acting on NodeClaims, " agg
            ∧ multierrErrors (some agg) =
              (fx.filterMap Effect.failure).flatMap (fun e => multierrErrors (some e))) := by
  obtain ⟨fx, h1, _, h3, h4, h5, h6, h7, h8⟩ :=
    handleInstances_spec env msg msg.ec2InstanceIDs none (tr ++ [.receivedMessagesInc msg.kind])
  unfold handleMessage
  dsimp only
  rw [if_neg hkind]
  generalize hres : handleInstances env msg msg.ec2InstanceIDs none
    (tr ++ [.receivedMessagesInc msg.kind]) = res at h1 h6 h7 ⊢
  refine ⟨([.receivedMessagesInc msg.kind] ++ fx) ++ [.messageLatencyObserve msg.startTime],
    ?_, ?_, ?_, ?_, ?_, ?_, ?_⟩
  · cases hr : res.1 <;> simp [h1]
  · simp [List.filterMap_append, Effect.claimLookup, h3]
  · simp [List.filterMap_append, List.flatMap_append, Effect.nodeLookup, Effect.matched, h4]
  · simp [List.filterMap_append, List.flatMap_append, Effect.nodeLookup, Effect.matched,
      Effect.dispatch, h5]
  · refine Dispatched_append env msg tr _ _ ?_
      (Dispatched_of_no_dispatch env msg _ _ (by simp [Effect.dispatch]))
    exact Dispatched_append env msg tr _ _
      (Dispatched_of_no_dispatch env msg tr _ (by simp [Effect.dispatch])) h8
  · have hf : (([Effect.receivedMessagesInc msg.kind] ++ fx)
        ++ [Effect.messageLatencyObserve msg.startTime]).filterMap Effect.failure
        = fx.filterMap Effect.failure := by
      simp [List.filterMap_append, Effect.failure]
    rw [hf]
    cases hr : res.1 with
    | none =>
      have := h6.1 hr
      simp [this.2]
    | some e =>
      constructor
      · intro h; cases h
      · intro hnil
        have := h6.2 ⟨rfl, hnil⟩
        rw [hr] at this
        cases this
  · have hf : (([Effect.receivedMessagesInc msg.kind] ++ fx)
        ++ [Effect.messageLatencyObserve msg.startTime]).filterMap Effect.failure
        = fx.filterMap Effect.failure := by
      simp [List.filterMap_append, Effect.failure]
    rw [hf]
    intro err herr
    cases hr : res.1 with
    | none => rw [hr] at herr; simp at herr
    | some e =>
      rw [hr] at herr
      simp only [Option.some.injEq] at herr
      refine ⟨e, herr.symm, ?_⟩
      rw [hr] at h7
      rw [h7]
      simp [multierrErrors]

/-- Whatever the message, `handleMessage` extends the trace and issues no queue
delete. -/
theorem handleMessage_trace (env : Env) (msg : Message) (tr : List Effect) :
    ∃ fx, (handleMessage env msg tr).2 = tr ++ fx ∧ ∀ e ∈ fx, e.deleteTarget = none := by
  unfold handleMessage
  dsimp only
  by_cases hkind : msg.kind = NoOpKind
  · rw [if_pos hkind]
    exact ⟨_, rfl, by simp [Effect.deleteTarget]⟩
  · rw [if_neg hkind]
    obtain ⟨fx, h1, h2, _⟩ :=
      handleInstances_spec env msg msg.ec2InstanceIDs none
        (tr ++ [.receivedMessagesInc msg.kind])
    refine ⟨([.receivedMessagesInc msg.kind] ++ fx)
      ++ [.messageLatencyObserve msg.startTime], ?_, ?_⟩
    · cases hr : (handleInstances env msg msg.ec2InstanceIDs none
        (tr ++ [.receivedMessagesInc msg.kind])).1 <;> simp [h1]
    · intro x hx
      simp only [List.mem_append, List.mem_singleton] at hx
      rcases hx with (hx | hx) | hx
      · subst hx; rfl
      · exact h2 x hx
      · subst hx; rfl

/-! ## The trace of `Reconcile` -/

theorem deleteMessage_eq (env : Env) (prov : SQSProvider) (raw : Option RawMessage)
    (tr : List Effect) :
    deleteMessage env prov raw tr =
      ((env.deleteSQSMessage prov tr raw).map (Err.wrap "deleting sqs message, "),
        tr ++ (Effect.deleteSQSMessage raw (env.deleteSQSMessage prov tr raw) ::
          (match env.deleteSQSMessage prov tr raw with
            | none => [Effect.deletedMessagesInc]
            | some _ => []))) := by
  unfold deleteMessage
  cases env.deleteSQSMessage prov tr raw <;> simp

theorem parseMessage_error_iff (env : Env) (raw : Option RawMessage) :
    (∃ e, parseMessage env raw = .error e) ↔
      (raw = none ∨ ∃ r, raw = some r ∧
        (r.body = none ∨ ∃ body err, r.body = some body ∧ env.parse body = .error err)) := by
  unfold parseMessage
  cases raw with
  | none => simp
  | some r =>
    cases hb : r.body with
    | none => simp [hb]
    | some body =>
      cases hp : env.parse body with
      | error err => simp [hb, hp]
      | ok msg => simp [hb, hp]

theorem reconcileEntry_trace (env : Env) (prov : SQSProvider) (raw : Option RawMessage)
    (tr : List Effect) : ∃ fx, (reconcileEntry env prov raw tr).2 = tr ++ fx := by
  unfold reconcileEntry
  cases parseMessage env raw with
  | error e =>
    dsimp only
    rw [deleteMessage_eq]
    exact ⟨_, List.append_assoc _ _ _⟩
  | ok msg =>
    dsimp only
    obtain ⟨fx, h1, _⟩ := handleMessage_trace env msg tr
    cases hr : (handleMessage env msg tr).1 with
    | some e => exact ⟨fx, h1⟩
    | none =>
      dsimp only
      rw [deleteMessage_eq, h1]
      exact ⟨_, List.append_assoc _ _ _⟩

theorem reconcileBatch_trace (env : Env) (prov : SQSProvider) :
    ∀ (msgs : List (Option RawMessage)) (tr : List Effect),
      ∃ fx, (reconcileBatch env prov msgs tr).2 = tr ++ fx := by
  intro msgs
  induction msgs with
  | nil => intro tr; exact ⟨[], by simp [reconcileBatch]⟩
  | cons raw rest ih =>
    intro tr
    rw [reconcileBatch]
    dsimp only
    obtain ⟨fx1, h1⟩ := reconcileEntry_trace env prov raw tr
    obtain ⟨fx2, h2⟩ := ih (reconcileEntry env prov raw tr).2
    exact ⟨fx1 ++ fx2, by rw [h2, h1, List.append_assoc]⟩

theorem reconcileBatch_append (env : Env) (prov : SQSProvider) :
    ∀ (pre post : List (Option RawMessage)) (tr : List Effect),
      reconcileBatch env prov (pre ++ post) tr =
        ((reconcileBatch env prov pre tr).1
            ++ (reconcileBatch env prov post (reconcileBatch env prov pre tr).2).1,
          (reconcileBatch env prov post (reconcileBatch env prov pre tr).2).2) := by
  intro pre
  induction pre with
  | nil => intro post tr; simp [reconcileBatch]
  | cons raw rest ih =>
    intro post tr
    rw [List.cons_append, reconcileBatch, reconcileBatch]
    dsimp only
    rw [ih]
    simp

theorem reconcileBatch_length (env : Env) (prov : SQSProvider) :
    ∀ (msgs : List (Option RawMessage)) (tr : List Effect),
      (reconcileBatch env prov msgs tr).1.length = msgs.length := by
  intro msgs
  induction msgs with
  | nil => intro tr; simp [reconcileBatch]
  | cons raw rest ih => intro tr; simp [reconcileBatch, ih]

/-- After a successful fetch of a batch that is not empty, the tick is the run
of the pieces followed by the combination of their slots. -/
theorem Reconcile_of_fetch (env : Env) (c c' : Controller) (tr t0 : List Effect)
    (prov : SQSProvider) (msgs : List (Option RawMessage))
    (hfetch : fetchBatch env c tr = (.ok (prov, msgs), c', t0)) (hne : msgs ≠ []) :
    (Reconcile env c tr).trace = (reconcileBatch env prov msgs t0).2
    ∧ (Reconcile env c tr).err = multierrCombine (reconcileBatch env prov msgs t0).1
    ∧ (Reconcile env c tr).result =
        (match multierrCombine (reconcileBatch env prov msgs t0).1 with
          | none => { requeue := false, requeueAfter := RequeueImmediately }
          | some _ => { requeue := false, requeueAfter := 0 }) := by
  have hlen : ¬ msgs.length = 0 := fun h => hne (List.length_eq_zero.1 h)
  unfold Reconcile
  rw [hfetch]
  dsimp only
  rw [if_neg hlen]
  cases multierrCombine (reconcileBatch env prov msgs t0).1 <;> simp

/-- The piece of every entry of a fetched batch runs inside the tick: the
trace of the tick holds its effects as a segment, and its result is the
entry's slot of `errs`. -/
theorem Reconcile_entry (env : Env) (c c' : Controller) (tr t0 : List Effect)
    (prov : SQSProvider) (pre post : List (Option RawMessage)) (raw : Option RawMessage)
    (hfetch : fetchBatch env c tr = (.ok (prov, pre ++ raw :: post), c', t0)) :
    ∃ fx after,
      (reconcileEntry env prov raw (reconcileBatch env prov pre t0).2).2
        = (reconcileBatch env prov pre t0).2 ++ fx
      ∧ (Reconcile env c tr).trace = (reconcileBatch env prov pre t0).2 ++ fx ++ after
      ∧ (reconcileBatch env prov (pre ++ raw :: post) t0).1[pre.length]?
        = some (reconcileEntry env prov raw (reconcileBatch env prov pre t0).2).1 := by
  obtain ⟨h1, _, _⟩ :=
    Reconcile_of_fetch env c c' tr t0 prov (pre ++ raw :: post) hfetch (by simp)
  obtain ⟨fx, hfx⟩ := reconcileEntry_trace env prov raw (reconcileBatch env prov pre t0).2
  obtain ⟨after, hafter⟩ := reconcileBatch_trace env prov post
    (reconcileEntry env prov raw (reconcileBatch env prov pre t0).2).2
  refine ⟨fx, after, hfx, ?_, ?_⟩
  · rw [h1, reconcileBatch_append]
    simp only [reconcileBatch]
    rw [hafter, hfx]
  · rw [reconcileBatch_append]
    simp only [reconcileBatch]
    rw [List.getElem?_append_right (by rw [reconcileBatch_length])]
    simp [reconcileBatch_length]

/-- C1, amended: in `Reconcile`, for every fetched batch and every entry of it,
the effects of the entry's piece are a segment of the trace of the tick, and
in that segment the entry receives exactly one delete request when its
classification fails or `handleMessage` returns nil; when `handleMessage`
returns an error the entry receives no delete request and its slot of `errs`
holds the wrapped handling error. -/
theorem C1_delete_unless_handling_fails (env : Env) (c c' : Controller) (tr t0 : List Effect)
    (prov : SQSProvider) (pre post : List (Option RawMessage)) (raw : Option RawMessage)
    (hfetch : fetchBatch env c tr = (.ok (prov, pre ++ raw :: post), c', t0)) :
    ∃ fx after,
      (reconcileEntry env prov raw (reconcileBatch env prov pre t0).2).2
        = (reconcileBatch env prov pre t0).2 ++ fx
      ∧ (Reconcile env c tr).trace = (reconcileBatch env prov pre t0).2 ++ fx ++ after
      ∧ (match parseMessage env raw with
        | .error _ => fx.filterMap Effect.deleteTarget = [raw]
        | .ok msg =>
          match (handleMessage env msg (reconcileBatch env prov pre t0).2).1 with
          | none => fx.filterMap Effect.deleteTarget = [raw]
          | some e =>
            fx.filterMap Effect.deleteTarget = []
            ∧ (reconcileBatch env prov (pre ++ raw :: post) t0).1[pre.length]?
              = some (some (.wrap "handling message, " e))) := by
  obtain ⟨fx, after, h1, h2, h3⟩ := Reconcile_entry env c c' tr t0 prov pre post raw hfetch
  refine ⟨fx, after, h1, h2, ?_⟩
  generalize (reconcileBatch env prov pre t0).2 = t1 at h1 h3 ⊢
  unfold reconcileEntry at h1 h3
  cases hp : parseMessage env raw with
  | error e =>
    rw [hp] at h1
    dsimp only at h1 ⊢
    rw [deleteMessage_eq, List.append_assoc] at h1
    have := List.append_cancel_left h1
    rw [← this]
    cases env.deleteSQSMessage prov (t1 ++ [Effect.logError e _]) raw <;>
      simp [Effect.deleteTarget]
  | ok msg =>
    rw [hp] at h1 h3
    dsimp only at h1 h3 ⊢
    obtain ⟨fxm, m1, m2⟩ := handleMessage_trace env msg t1
    have hnone : fxm.filterMap Effect.deleteTarget = [] :=
      filterMap_nil_of_forall _ _ m2
    cases hr : (handleMessage env msg t1).1 with
    | none =>
      rw [hr] at h1
      dsimp only at h1 ⊢
      rw [deleteMessage_eq, m1, List.append_assoc] at h1
      have := List.append_cancel_left h1
      rw [← this, List.filterMap_append, hnone]
      cases env.deleteSQSMessage prov (t1 ++ fxm) raw <;> simp [Effect.deleteTarget]
    | some e =>
      rw [hr] at h1 h3
      dsimp only at h1 h3 ⊢
      rw [m1] at h1
      have := List.append_cancel_left h1
      rw [← this]
      exact ⟨hnone, h3⟩

/-- C4: in `Reconcile`, for every entry of the fetched batch whose
classification fails (nil message, nil body, or an error of the parser), the
segment of the trace made by the entry's piece holds exactly one delete
request, for that entry, and no cluster API call, no event publication and no
capacity-cache write. -/
theorem C4_classification_failure_only_deletes (env : Env) (c c' : Controller)
    (tr t0 : List Effect) (prov : SQSProvider) (pre post : List (Option RawMessage))
    (raw : Option RawMessage)
    (hfetch : fetchBatch env c tr = (.ok (prov, pre ++ raw :: post), c', t0))
    (hfail : raw = none ∨ ∃ r, raw = some r ∧
      (r.body = none ∨ ∃ body err, r.body = some body ∧ env.parse body = .error err)) :
    ∃ fx after,
      (reconcileEntry env prov raw (reconcileBatch env prov pre t0).2).2
        = (reconcileBatch env prov pre t0).2 ++ fx
      ∧ (Reconcile env c tr).trace = (reconcileBatch env prov pre t0).2 ++ fx ++ after
      ∧ fx.filterMap Effect.deleteTarget = [raw]
      ∧ ∀ x ∈ fx, x.isClusterCall = false ∧ x.isPublish = false
          ∧ x.isMarkUnavailable = false := by
  obtain ⟨fx, after, h1, h2, _⟩ := Reconcile_entry env c c' tr t0 prov pre post raw hfetch
  obtain ⟨e, hp⟩ := (parseMessage_error_iff env raw).2 hfail
  refine ⟨fx, after, h1, h2, ?_⟩
  generalize (reconcileBatch env prov pre t0).2 = t1 at h1 ⊢
  unfold reconcileEntry at h1
  rw [hp] at h1
  dsimp only at h1
  rw [deleteMessage_eq, List.append_assoc] at h1
  have := List.append_cancel_left h1
  rw [← this]
  cases env.deleteSQSMessage prov (t1 ++ [Effect.logError e _]) raw <;>
    simp [Effect.deleteTarget, Effect.isClusterCall, Effect.isPublish,
      Effect.isMarkUnavailable]

/-- C5, amended: in `Reconcile`, a classification failure is logged and not
recorded into the errors of the batch.  For every entry of the fetched batch
whose classification fails with `e`, the entry's piece logs `e`, and the
entry's slot of `errs` holds only the outcome of the delete request made for
it: nil when the delete succeeds, the wrapped delete error otherwise.  The
error of the tick is the combination of the slots. -/
theorem C5_classification_error_logged_not_aggregated (env : Env) (c c' : Controller)
    (tr t0 : List Effect) (prov : SQSProvider) (pre post : List (Option RawMessage))
    (raw : Option RawMessage) (e : Err)
    (hfetch : fetchBatch env c tr = (.ok (prov, pre ++ raw :: post), c', t0))
    (hparse : parseMessage env raw = .error e) :
    ∃ fx after,
      (Reconcile env c tr).trace = (reconcileBatch env prov pre t0).2 ++ fx ++ after
      ∧ Effect.logError e "failed parsing interruption message" ∈ fx
      ∧ (reconcileBatch env prov (pre ++ raw :: post) t0).1[pre.length]?
        = some ((env.deleteSQSMessage prov
            ((reconcileBatch env prov pre t0).2
              ++ [Effect.logError e "failed parsing interruption message"]) raw).map
            (Err.wrap "deleting sqs message, "))
      ∧ (Reconcile env c tr).err
        = multierrCombine (reconcileBatch env prov (pre ++ raw :: post) t0).1 := by
  obtain ⟨fx, after, h1, h2, h3⟩ := Reconcile_entry env c c' tr t0 prov pre post raw hfetch
  obtain ⟨_, h4, _⟩ :=
    Reconcile_of_fetch env c c' tr t0 prov (pre ++ raw :: post) hfetch (by simp)
  refine ⟨fx, after, h2, ?_, ?_, h4⟩
  · unfold reconcileEntry at h1
    rw [hparse] at h1
    dsimp only at h1
    rw [deleteMessage_eq, List.append_assoc] at h1
    have := List.append_cancel_left h1
    rw [← this]
    simp
  · rw [h3]
    unfold reconcileEntry
    rw [hparse]
    dsimp only
    rw [deleteMessage_eq]

/-- C6: the NoOp short-circuit.  For a message of kind NoOp, whatever instances
it names, `handleMessage` returns nil and does nothing but count the received
message; and when such a message is an entry of the fetched batch, the
entry's piece in `Reconcile` does that and then issues the delete request for
the entry, nothing else. -/
theorem C6_noop_short_circuit (env : Env) (msg : Message) (tr : List Effect)
    (hkind : msg.kind = NoOpKind) :
    handleMessage env msg tr = (none, tr ++ [Effect.receivedMessagesInc msg.kind])
    ∧ ∀ (c c' : Controller) (tr0 t0 : List Effect) (prov : SQSProvider)
        (pre post : List (Option RawMessage)) (raw : Option RawMessage),
      fetchBatch env c tr0 = (.ok (prov, pre ++ raw :: post), c', t0) →
      parseMessage env raw = .ok msg →
      ∃ after,
        (Reconcile env c tr0).trace =
          (reconcileBatch env prov pre t0).2
            ++ (Effect.receivedMessagesInc msg.kind
              :: Effect.deleteSQSMessage raw
                  (env.deleteSQSMessage prov
                    ((reconcileBatch env prov pre t0).2
                      ++ [Effect.receivedMessagesInc msg.kind]) raw)
              :: (match env.deleteSQSMessage prov
                    ((reconcileBatch env prov pre t0).2
                      ++ [Effect.receivedMessagesInc msg.kind]) raw with
                  | none => [Effect.deletedMessagesInc]
                  | some _ => []))
            ++ after := by
  have hm : ∀ tr', handleMessage env msg tr'
      = (none, tr' ++ [Effect.receivedMessagesInc msg.kind]) := by
    intro tr'
    unfold handleMessage
    dsimp only
    rw [if_pos hkind]
  refine ⟨hm tr, ?_⟩
  intro c c' tr0 t0 prov pre post raw hfetch hparse
  obtain ⟨fx, after, h1, h2, _⟩ := Reconcile_entry env c c' tr0 t0 prov pre post raw hfetch
  refine ⟨after, ?_⟩
  rw [h2]
  generalize (reconcileBatch env prov pre t0).2 = t1 at h1 ⊢
  unfold reconcileEntry at h1
  rw [hparse] at h1
  dsimp only at h1
  rw [hm] at h1
  dsimp only at h1
  rw [deleteMessage_eq, List.append_assoc] at h1
  have := List.append_cancel_left h1
  rw [← this]
  simp

/-- C10, amended: whenever the queue fetch succeeds, the error of the tick is
nil for an empty batch and the combination of the per-entry errors otherwise;
`Reconcile` returns the requeue-immediately hint exactly when that error is
nil, and the empty result, without a hint, together with the error when it is
not. -/
theorem C10_requeue_only_without_error (env : Env) (c c' : Controller) (tr t0 : List Effect)
    (prov : SQSProvider) (msgs : List (Option RawMessage))
    (hfetch : fetchBatch env c tr = (.ok (prov, msgs), c', t0)) :
    (Reconcile env c tr).err =
        (if msgs.length = 0 then none
          else multierrCombine (reconcileBatch env prov msgs t0).1)
    ∧ (Reconcile env c tr).result =
        (match (Reconcile env c tr).err with
          | none => { requeue := false, requeueAfter := RequeueImmediately }
          | some _ => { requeue := false, requeueAfter := 0 }) := by
  by_cases hlen : msgs.length = 0
  · have herr : (Reconcile env c tr).err = none := by
      unfold Reconcile; rw [hfetch]; dsimp only; rw [if_pos hlen]
    refine ⟨by rw [herr, if_pos hlen], ?_⟩
    rw [herr]
    unfold Reconcile; rw [hfetch]; dsimp only; rw [if_pos hlen]
  · have hne : msgs ≠ [] := fun h => hlen (by rw [h]; rfl)
    obtain ⟨_, h2, h3⟩ := Reconcile_of_fetch env c c' tr t0 prov msgs hfetch hne
    refine ⟨by rw [h2, if_neg hlen], ?_⟩
    rw [h3, h2]

/-- C1 fails as stated: the queue holds one entry, its classification succeeds
and `handleMessage` returns a lookup error; the tick ends without any delete
request. -/
theorem C1_counterexample :
    (fetchBatch lookupFailsEnv { sqsProvider := none } []).1
        = .ok (sampleProvider, [sampleRaw])
    ∧ parseMessage lookupFailsEnv sampleRaw = .ok sampleMessage
    ∧ (handleMessage lookupFailsEnv sampleMessage (fetchedTrace [sampleRaw])).1
        = some (.wrap "acting on NodeClaims, " (.leaf none "connection refused"))
    ∧ (Reconcile lookupFailsEnv { sqsProvider := none } []).trace
        = fetchedTrace [sampleRaw]
          ++ [.receivedMessagesInc SpotInterruptionKind,
            .listNodeClaims "i-1" (.error (.leaf none "connection refused")),
            .messageLatencyObserve 0]
    ∧ (Reconcile lookupFailsEnv { sqsProvider := none } []).trace.filterMap
        Effect.deleteTarget = [] :=
  ⟨rfl, rfl, rfl, rfl, rfl⟩

/-- C2 at the sample claim: the hypotheses hold there. -/
theorem C2_witness :
    actionForMessage sampleMessage = CordonAndDrain
    ∧ timeIsZero sampleClaim.deletionTimestamp = true
    ∧ sampleEnv.delete
        (markOffering sampleMessage sampleClaim
          (notifyForMessage sampleMessage sampleClaim none [])) sampleClaim = none
    ∧ timeIsZero (some 5) = false
    ∧ ((handleNodeClaim sampleEnv sampleMessage sampleClaim none []).1 = none
      ∧ (handleNodeClaim sampleEnv sampleMessage
          { sampleClaim with deletionTimestamp := some 5 } none []).1 = none
      ∧ ∃ fx, (handleNodeClaim sampleEnv sampleMessage
            { sampleClaim with deletionTimestamp := some 5 } none []).2 = [] ++ fx
          ∧ fx = notifyForMessage sampleMessage
              { sampleClaim with deletionTimestamp := some 5 } none []
            ++ markOffering sampleMessage { sampleClaim with deletionTimestamp := some 5 } []
          ∧ fx.filter Effect.isDeleteNodeClaim = []
          ∧ fx.filter Effect.isTerminatingOnInterruption = []
          ∧ fx.filter Effect.isNodeClaimsDisruptedInc = []) :=
  ⟨rfl, rfl, rfl, rfl,
    C2_handleNodeClaim_idempotent sampleEnv sampleMessage sampleClaim none none [] [] 5
      rfl rfl rfl rfl⟩

/-- C8 at the sample claim: the hypotheses hold there. -/
theorem C8_witness :
    actionForMessage sampleMessage = CordonAndDrain
    ∧ timeIsZero sampleClaim.deletionTimestamp = true
    ∧ ∃ fx, (handleNodeClaim sampleEnv sampleMessage sampleClaim none []).2 = [] ++ fx
      ∧ fx.filter Effect.isDeleteNodeClaim =
          [Effect.deleteNodeClaim sampleClaim
            (sampleEnv.delete
              (markOffering sampleMessage sampleClaim
                (notifyForMessage sampleMessage sampleClaim none [])) sampleClaim)]
      ∧ (match sampleEnv.delete
            (markOffering sampleMessage sampleClaim
              (notifyForMessage sampleMessage sampleClaim none [])) sampleClaim with
        | none =>
          (handleNodeClaim sampleEnv sampleMessage sampleClaim none []).1 = none
          ∧ fx.filter Effect.isTerminatingOnInterruption =
              [Effect.publish .TerminatingOnInterruption none sampleClaim]
          ∧ fx.filter Effect.isNodeClaimsDisruptedInc =
              [Effect.nodeClaimsDisruptedInc sampleMessage.kind
                (labelOf sampleClaim.labels NodePoolLabelKey)
                (labelOf sampleClaim.labels CapacityTypeLabelKey)]
        | some e =>
          (handleNodeClaim sampleEnv sampleMessage sampleClaim none []).1 =
              (if e.IsNotFound then none
                else some (.wrap "deleting the node on interruption message, " e))
          ∧ fx.filter Effect.isTerminatingOnInterruption = []
          ∧ fx.filter Effect.isNodeClaimsDisruptedInc = []) :=
  ⟨rfl, rfl,
    C8_handleNodeClaim_delete_decides sampleEnv sampleMessage sampleClaim none [] rfl rfl⟩

/-- C9 at the sample message: the hypothesis holds there. -/
theorem C9_witness :
    sampleMessage.kind ≠ NoOpKind
    ∧ ∃ fx, (handleMessage sampleEnv sampleMessage []).2 = [] ++ fx
      ∧ fx.filterMap Effect.claimLookup = sampleMessage.ec2InstanceIDs
      ∧ (fx.filterMap Effect.nodeLookup).map Prod.fst
          = (fx.flatMap Effect.matched).map Prod.fst
      ∧ fx.filterMap Effect.dispatch =
          (List.zip (fx.flatMap Effect.matched)
            (fx.filterMap Effect.nodeLookup)).filterMap dispatchOf
      ∧ Dispatched sampleEnv sampleMessage [] fx
      ∧ ((handleMessage sampleEnv sampleMessage []).1 = none
          ↔ fx.filterMap Effect.failure = [])
      ∧ (∀ err, (handleMessage sampleEnv sampleMessage []).1 = some err →
          ∃ agg, err = .wrap "acting on NodeClaims, " agg
            ∧ multierrErrors (some agg) =
              (fx.filterMap Effect.failure).flatMap (fun e => multierrErrors (some e))) :=
  ⟨by decide, C9_handleMessage_isolation sampleEnv sampleMessage [] (by decide)⟩

/-- C1, amended, at the first tick of the sample run. -/
theorem C1_witness :
    fetchBatch sampleEnv { sqsProvider := none } []
      = (.ok (sampleProvider, [] ++ sampleRaw :: []), { sqsProvider := some sampleProvider },
        fetchedTrace [sampleRaw])
    ∧ ∃ fx after,
      (reconcileEntry sampleEnv sampleProvider sampleRaw
          (reconcileBatch sampleEnv sampleProvider [] (fetchedTrace [sampleRaw])).2).2
        = (reconcileBatch sampleEnv sampleProvider [] (fetchedTrace [sampleRaw])).2 ++ fx
      ∧ (Reconcile sampleEnv { sqsProvider := none } []).trace
        = (reconcileBatch sampleEnv sampleProvider [] (fetchedTrace [sampleRaw])).2
          ++ fx ++ after
      ∧ (match parseMessage sampleEnv sampleRaw with
        | .error _ => fx.filterMap Effect.deleteTarget = [sampleRaw]
        | .ok msg =>
          match (handleMessage sampleEnv msg
            (reconcileBatch sampleEnv sampleProvider [] (fetchedTrace [sampleRaw])).2).1 with
          | none => fx.filterMap Effect.deleteTarget = [sampleRaw]
          | some e =>
            fx.filterMap Effect.deleteTarget = []
            ∧ (reconcileBatch sampleEnv sampleProvider ([] ++ sampleRaw :: [])
                (fetchedTrace [sampleRaw])).1[([] : List (Option RawMessage)).length]?
              = some (some (.wrap "handling message, " e))) :=
  ⟨rfl, C1_delete_unless_handling_fails sampleEnv { sqsProvider := none }
    { sqsProvider := some sampleProvider } [] (fetchedTrace [sampleRaw]) sampleProvider
    [] [] sampleRaw rfl⟩

/-- C4 at the first tick of a run whose queue holds one message that the
parser rejects. -/
theorem C4_witness :
    fetchBatch malformedEnv { sqsProvider := none } []
      = (.ok (sampleProvider, [] ++ malformedRaw :: []),
        { sqsProvider := some sampleProvider }, fetchedTrace [malformedRaw])
    ∧ (malformedRaw = none ∨ ∃ r, malformedRaw = some r ∧
        (r.body = none
          ∨ ∃ body err, r.body = some body ∧ malformedEnv.parse body = .error err))
    ∧ ∃ fx after,
      (reconcileEntry malformedEnv sampleProvider malformedRaw
          (reconcileBatch malformedEnv sampleProvider [] (fetchedTrace [malformedRaw])).2).2
        = (reconcileBatch malformedEnv sampleProvider [] (fetchedTrace [malformedRaw])).2
          ++ fx
      ∧ (Reconcile malformedEnv { sqsProvider := none } []).trace
        = (reconcileBatch malformedEnv sampleProvider [] (fetchedTrace [malformedRaw])).2
          ++ fx ++ after
      ∧ fx.filterMap Effect.deleteTarget = [malformedRaw]
      ∧ ∀ x ∈ fx, x.isClusterCall = false ∧ x.isPublish = false
          ∧ x.isMarkUnavailable = false :=
  ⟨rfl, Or.inr ⟨_, rfl, Or.inr ⟨_, _, rfl, rfl⟩⟩,
    C4_classification_failure_only_deletes malformedEnv { sqsProvider := none }
      { sqsProvider := some sampleProvider } [] (fetchedTrace [malformedRaw]) sampleProvider
      [] [] malformedRaw rfl (Or.inr ⟨_, rfl, Or.inr ⟨_, _, rfl, rfl⟩⟩)⟩

/-- C5, amended, at the first tick of a run whose queue holds one message that
the parser rejects. -/
theorem C5_witness :
    fetchBatch malformedEnv { sqsProvider := none } []
      = (.ok (sampleProvider, [] ++ malformedRaw :: []),
        { sqsProvider := some sampleProvider }, fetchedTrace [malformedRaw])
    ∧ parseMessage malformedEnv malformedRaw
      = .error (.wrap "parsing sqs message, " (.leaf none "unmarshalling the message"))
    ∧ ∃ fx after,
      (Reconcile malformedEnv { sqsProvider := none } []).trace
        = (reconcileBatch malformedEnv sampleProvider [] (fetchedTrace [malformedRaw])).2
          ++ fx ++ after
      ∧ Effect.logError
          (.wrap "parsing sqs message, " (.leaf none "unmarshalling the message"))
          "failed parsing interruption message" ∈ fx
      ∧ (reconcileBatch malformedEnv sampleProvider ([] ++ malformedRaw :: [])
          (fetchedTrace [malformedRaw])).1[([] : List (Option RawMessage)).length]?
        = some ((malformedEnv.deleteSQSMessage sampleProvider
            ((reconcileBatch malformedEnv sampleProvider [] (fetchedTrace [malformedRaw])).2
              ++ [Effect.logError
                (.wrap "parsing sqs message, " (.leaf none "unmarshalling the message"))
                "failed parsing interruption message"]) malformedRaw).map
            (Err.wrap "deleting sqs message, "))
      ∧ (Reconcile malformedEnv { sqsProvider := none } []).err
        = multierrCombine (reconcileBatch malformedEnv sampleProvider
            ([] ++ malformedRaw :: []) (fetchedTrace [malformedRaw])).1 :=
  ⟨rfl, rfl,
    C5_classification_error_logged_not_aggregated malformedEnv { sqsProvider := none }
      { sqsProvider := some sampleProvider } [] (fetchedTrace [malformedRaw]) sampleProvider
      [] [] malformedRaw _ rfl rfl⟩

/-- C6 at the NoOp message of a run whose queue holds that message only. -/
theorem C6_witness :
    noopMessage.kind = NoOpKind
    ∧ fetchBatch noopEnv { sqsProvider := none } []
      = (.ok (sampleProvider, [] ++ noopRaw :: []), { sqsProvider := some sampleProvider },
        fetchedTrace [noopRaw])
    ∧ parseMessage noopEnv noopRaw = .ok noopMessage
    ∧ handleMessage noopEnv noopMessage (fetchedTrace [noopRaw])
      = (none, fetchedTrace [noopRaw] ++ [Effect.receivedMessagesInc noopMessage.kind])
    ∧ ∃ after,
      (Reconcile noopEnv { sqsProvider := none } []).trace =
        (reconcileBatch noopEnv sampleProvider [] (fetchedTrace [noopRaw])).2
          ++ (Effect.receivedMessagesInc noopMessage.kind
            :: Effect.deleteSQSMessage noopRaw
                (noopEnv.deleteSQSMessage sampleProvider
                  ((reconcileBatch noopEnv sampleProvider [] (fetchedTrace [noopRaw])).2
                    ++ [Effect.receivedMessagesInc noopMessage.kind]) noopRaw)
            :: (match noopEnv.deleteSQSMessage sampleProvider
                  ((reconcileBatch noopEnv sampleProvider [] (fetchedTrace [noopRaw])).2
                    ++ [Effect.receivedMessagesInc noopMessage.kind]) noopRaw with
                | none => [Effect.deletedMessagesInc]
                | some _ => []))
          ++ after :=
  ⟨rfl, rfl, rfl,
    (C6_noop_short_circuit noopEnv noopMessage (fetchedTrace [noopRaw]) rfl).1,
    (C6_noop_short_circuit noopEnv noopMessage (fetchedTrace [noopRaw]) rfl).2
      { sqsProvider := none } { sqsProvider := some sampleProvider } []
      (fetchedTrace [noopRaw]) sampleProvider [] [] noopRaw rfl rfl⟩

/-- C10, amended, at the first tick of the sample run. -/
theorem C10_witness :
    fetchBatch sampleEnv { sqsProvider := none } []
      = (.ok (sampleProvider, [sampleRaw]), { sqsProvider := some sampleProvider },
        fetchedTrace [sampleRaw])
    ∧ (Reconcile sampleEnv { sqsProvider := none } []).err =
        (if [sampleRaw].length = 0 then none
          else multierrCombine
            (reconcileBatch sampleEnv sampleProvider [sampleRaw]
              (fetchedTrace [sampleRaw])).1)
    ∧ (Reconcile sampleEnv { sqsProvider := none } []).result =
        (match (Reconcile sampleEnv { sqsProvider := none } []).err with
          | none => { requeue := false, requeueAfter := RequeueImmediately }
          | some _ => { requeue := false, requeueAfter := 0 }) :=
  ⟨rfl, C10_requeue_only_without_error sampleEnv { sqsProvider := none }
    { sqsProvider := some sampleProvider } [] (fetchedTrace [sampleRaw]) sampleProvider
    [sampleRaw] rfl⟩

/-- C5 fails as stated: the queue holds one message that the parser rejects;
the delete of the entry succeeds and the tick returns a nil error, the
classification error having gone to the log only. -/
theorem C5_counterexample :
    (fetchBatch malformedEnv { sqsProvider := none } []).1
        = .ok (sampleProvider, [malformedRaw])
    ∧ parseMessage malformedEnv malformedRaw
        = .error (.wrap "parsing sqs message, " (.leaf none "unmarshalling the message"))
    ∧ (Reconcile malformedEnv { sqsProvider := none } []).trace
        = fetchedTrace [malformedRaw]
          ++ [.logError
              (.wrap "parsing sqs message, " (.leaf none "unmarshalling the message"))
              "failed parsing interruption message",
            .deleteSQSMessage malformedRaw none, .deletedMessagesInc]
    ∧ (Reconcile malformedEnv { sqsProvider := none } []).err = none :=
  ⟨rfl, rfl, rfl, rfl⟩

/-- C10 fails as stated: the fetch succeeds with one entry, whose handling fails
on the claim lookup; the tick returns the error with the empty result, not the
requeue-immediately hint. -/
theorem C10_counterexample :
    (fetchBatch lookupFailsEnv { sqsProvider := none } []).1
        = .ok (sampleProvider, [sampleRaw])
    ∧ (Reconcile lookupFailsEnv { sqsProvider := none } []).err
        = some (.wrap "handling message, "
            (.wrap "acting on NodeClaims, " (.leaf none "connection refused")))
    ∧ (Reconcile lookupFailsEnv { sqsProvider := none } []).result
        = { requeue := false, requeueAfter := 0 }
    ∧ (Reconcile lookupFailsEnv { sqsProvider := none } []).result.requeueAfter
        ≠ RequeueImmediately :=
  ⟨rfl, rfl, rfl, by decide⟩

end Interruption
